import Mathlib

/-!
Verification development for the authenticated transport layer of a Go client
library for the Atlassian Jira REST API.

The definitions below are shallow embeddings of the Go source:
  - jira/internal/issue_archive_impl.go  (issue archival resource methods)
  - jira/v3/api_client_impl.go           (client assembly, request pipeline,
                                          response classifier)
  - pkg/infra/models/issue_archival.go   (payload / response data model)

Go machine values are modelled as Nat / Int / String; fallible Go functions
return Except; byte buffers are modelled as String (the source only ever
treats the buffered body as an opaque byte sequence and via Bytes.String()).
-/

/-! ## Go standard library fragments used by the source -/

/-- Shallow embedding of the Go standard library function path.Base:
empty path gives ".", trailing slashes are removed, the suffix after the last
slash is returned, and a path of only slashes gives "/". -/
def pathBase (s : String) : String :=
  if s = "" then "."
  else
    let trimmed := (s.toList.reverse.dropWhile (fun c => c = '/')).reverse
    if trimmed.isEmpty then "/"
    else String.mk ((trimmed.reverse.takeWhile (fun c => c ≠ '/')).reverse)

/-! ## Error model

The sentinel error values of pkg/infra/models (ErrNoIssuesSlice, ErrNoJQL,
ErrNotFound, ErrUnauthorized, ErrInternal, ErrBadRequest,
ErrInvalidStatusCode) together with the per-call error classes produced by
the transport core (body-read failure, JSON decode failure, transport
failure, request build failure). -/
inductive ApiErr
  | noIssuesSlice
  | noJQL
  | notFound
  | unauthorized
  | internalServerError
  | badRequest
  | invalidStatusCode
  | readFailure (msg : String)
  | decodeFailure (msg : String)
  | transportFailure (msg : String)
  | buildFailure (msg : String)
  deriving DecidableEq

/-- An error belongs to the fixed HTTP-status taxonomy of processResponse. -/
def ApiErr.isStatusErr : ApiErr → Bool
  | .notFound => true
  | .unauthorized => true
  | .internalServerError => true
  | .badRequest => true
  | .invalidStatusCode => true
  | _ => false

/-! ## Data model (pkg/infra/models) -/

/-- models.ResponseScheme: status code, endpoint URL, HTTP method and the
buffered body bytes (the Bytes buffer, read as a string). The raw
*http.Response pointer carried by the Go struct is not modelled. -/
structure ResponseScheme where
  code : Nat
  endpoint : String
  method : String
  bytes : String
  deriving DecidableEq

/-- models.IssueArchivalErrorScheme. -/
structure IssueArchivalErrorScheme where
  count : Nat
  issueIdsOrKeys : List String
  message : String
  deriving DecidableEq

/-- models.IssueArchivalSyncErrorScheme. -/
structure IssueArchivalSyncErrorScheme where
  issueIsSubtask : Option IssueArchivalErrorScheme
  issuesInArchivedProjects : Option IssueArchivalErrorScheme
  issuesInUnlicensedProjects : Option IssueArchivalErrorScheme
  issuesNotFound : Option IssueArchivalErrorScheme
  userDoesNotHavePermission : Option IssueArchivalErrorScheme
  deriving DecidableEq

/-- models.IssueArchivalSyncResponseScheme. -/
structure IssueArchivalSyncResponseScheme where
  errors : Option IssueArchivalSyncErrorScheme
  numberOfIssuesUpdated : Int
  deriving DecidableEq

/-- models.DateRangeFilterRequestScheme. -/
structure DateRangeFilterRequestScheme where
  dateAfter : String
  dateBefore : String
  deriving DecidableEq

/-- models.IssueArchivalExportPayloadScheme. -/
structure IssueArchivalExportPayloadScheme where
  archivedBy : List String
  archivedDateRange : Option DateRangeFilterRequestScheme
  issueTypes : List String
  projects : List String
  reporters : List String
  deriving DecidableEq

/-! ## The service.Connector boundary

The archival resource methods depend on the client only through the
service.Connector interface (NewRequest + Call). The embedding quantifies
over an arbitrary connector; the methods additionally return the trace of
connector interactions so that "no request is built or sent" is a provable
statement rather than a side effect. -/

/-- The request payloads the archival methods build: the Go maps
with key "issueIdsOrKeys" or "jql", and the export payload pointer
(possibly nil). -/
inductive ConnPayload
  | issueIdsMap (ids : List String)
  | jqlMap (jql : String)
  | exportPayload (p : Option IssueArchivalExportPayloadScheme)
  deriving DecidableEq

/-- Opaque handle for the *http.Request value produced by the connector. -/
structure ConnRequest where
  id : Nat
  deriving DecidableEq

/-- Whether Call is given a destination structure (Preserve/Restore pass a
*IssueArchivalSyncResponseScheme, PreserveByJQL/Export pass nil). -/
inductive DestKind
  | noDest
  | syncDest
  deriving DecidableEq

/-- Result of Connector.Call: on success a non-nil response plus the value
unmarshalled into the destination (ignored by destination-less callers);
on failure a possibly-nil response together with the error, matching the
(response, err) pair returned by the Go Call. -/
inductive ConnCallResult
  | ok (resp : ResponseScheme) (decoded : IssueArchivalSyncResponseScheme)
  | fail (resp : Option ResponseScheme) (e : ApiErr)

/-- The service.Connector capability used by the archival methods:
NewRequest(ctx, method, endpoint, contentType, payload) and
Call(request, destination). The context argument carries no observable
data in this fragment and is omitted. -/
structure Connector where
  newRequest : String → String → String → ConnPayload → Except ApiErr ConnRequest
  call : ConnRequest → DestKind → ConnCallResult

/-- Trace of connector interactions performed by a resource method. -/
inductive ConnEvent
  | builtRequest (method endpoint contentType : String) (payload : ConnPayload)
  | calledRequest (req : ConnRequest) (dest : DestKind)

namespace internalIssueArchivalImpl

/-- internalIssueArchivalImpl.Preserve: empty id list returns
ErrNoIssuesSlice before any connector interaction; otherwise a PUT to
rest/api/{version}/issue/archive with the issueIdsOrKeys map, decoding the
body into a sync report. -/
def Preserve (c : Connector) (version : String) (issueIdsOrKeys : List String) :
    (Option IssueArchivalSyncResponseScheme × Option ResponseScheme × Option ApiErr) ×
      List ConnEvent :=
  if issueIdsOrKeys.length = 0 then ((none, none, some ApiErr.noIssuesSlice), [])
  else
    let endpoint := "rest/api/" ++ version ++ "/issue/archive"
    let payload := ConnPayload.issueIdsMap issueIdsOrKeys
    match c.newRequest "PUT" endpoint "" payload with
    | .error e => ((none, none, some e), [ConnEvent.builtRequest "PUT" endpoint "" payload])
    | .ok req =>
      let evs := [ConnEvent.builtRequest "PUT" endpoint "" payload,
                  ConnEvent.calledRequest req DestKind.syncDest]
      match c.call req DestKind.syncDest with
      | .fail resp? e => ((none, resp?, some e), evs)
      | .ok resp decoded => ((some decoded, some resp, none), evs)

/-- internalIssueArchivalImpl.PreserveByJQL: empty JQL returns ErrNoJQL
before any connector interaction; otherwise a POST to
rest/api/{version}/issue/archive with the jql map and a nil destination,
and on success the task ID is path.Base of the buffered body string. -/
def PreserveByJQL (c : Connector) (version : String) (jql : String) :
    (String × Option ResponseScheme × Option ApiErr) × List ConnEvent :=
  if jql = "" then (("", none, some ApiErr.noJQL), [])
  else
    let endpoint := "rest/api/" ++ version ++ "/issue/archive"
    let payload := ConnPayload.jqlMap jql
    match c.newRequest "POST" endpoint "" payload with
    | .error e => (("", none, some e), [ConnEvent.builtRequest "POST" endpoint "" payload])
    | .ok req =>
      let evs := [ConnEvent.builtRequest "POST" endpoint "" payload,
                  ConnEvent.calledRequest req DestKind.noDest]
      match c.call req DestKind.noDest with
      | .fail resp? e => (("", resp?, some e), evs)
      | .ok resp _ => ((pathBase resp.bytes, some resp, none), evs)

/-- internalIssueArchivalImpl.Restore: like Preserve against
rest/api/{version}/issue/unarchive. -/
def Restore (c : Connector) (version : String) (issueIdsOrKeys : List String) :
    (Option IssueArchivalSyncResponseScheme × Option ResponseScheme × Option ApiErr) ×
      List ConnEvent :=
  if issueIdsOrKeys.length = 0 then ((none, none, some ApiErr.noIssuesSlice), [])
  else
    let endpoint := "rest/api/" ++ version ++ "/issue/unarchive"
    let payload := ConnPayload.issueIdsMap issueIdsOrKeys
    match c.newRequest "PUT" endpoint "" payload with
    | .error e => ((none, none, some e), [ConnEvent.builtRequest "PUT" endpoint "" payload])
    | .ok req =>
      let evs := [ConnEvent.builtRequest "PUT" endpoint "" payload,
                  ConnEvent.calledRequest req DestKind.syncDest]
      match c.call req DestKind.syncDest with
      | .fail resp? e => ((none, resp?, some e), evs)
      | .ok resp decoded => ((some decoded, some resp, none), evs)

/-- internalIssueArchivalImpl.Export: a PUT to
rest/api/{version}/issues/archive/export with the export payload and a nil
destination; every return path yields an empty task ID. -/
def Export (c : Connector) (version : String)
    (payload : Option IssueArchivalExportPayloadScheme) :
    (String × Option ResponseScheme × Option ApiErr) × List ConnEvent :=
  let endpoint := "rest/api/" ++ version ++ "/issues/archive/export"
  let p := ConnPayload.exportPayload payload
  match c.newRequest "PUT" endpoint "" p with
  | .error e => (("", none, some e), [ConnEvent.builtRequest "PUT" endpoint "" p])
  | .ok req =>
    let evs := [ConnEvent.builtRequest "PUT" endpoint "" p,
                ConnEvent.calledRequest req DestKind.noDest]
    match c.call req DestKind.noDest with
    | .fail resp? e => (("", resp?, some e), evs)
    | .ok resp _ => (("", some resp, none), evs)

end internalIssueArchivalImpl

/-! ## Response Classifier (jira/v3/api_client_impl.go: Call, processResponse)

The destination structure of processResponse is modelled as an optional
unmarshalling function into some destination type σ: json.Unmarshal either
fills a value of σ from the body bytes or fails. -/

/-- The *http.Response data consumed by processResponse: status code, the
URL and method of the originating request, and the body stream, whose
io.ReadAll either yields the buffered bytes or fails. -/
structure HttpResponse where
  statusCode : Nat
  requestURL : String
  requestMethod : String
  body : Except String String

/-- The switch over non-2xx status codes in processResponse:
404, 401, 500 and 400 map to the fixed sentinels, every other status to
ErrInvalidStatusCode. -/
def statusError (code : Nat) : ApiErr :=
  if code = 404 then ApiErr.notFound
  else if code = 401 then ApiErr.unauthorized
  else if code = 500 then ApiErr.internalServerError
  else if code = 400 then ApiErr.badRequest
  else ApiErr.invalidStatusCode

/-- Client.processResponse: populate the envelope (code, endpoint, method),
drain the body once into the envelope, classify non-2xx statuses through
the fixed taxonomy, and otherwise unmarshal into the destination when one
is given. Returns the envelope, the decoded destination value, and the
error, mirroring the (res, err) pair plus destination mutation of the Go
code. -/
def processResponse {σ : Type} (response : HttpResponse)
    (dest : Option (String → Except String σ)) :
    ResponseScheme × Option σ × Option ApiErr :=
  let res0 : ResponseScheme :=
    { code := response.statusCode, endpoint := response.requestURL,
      method := response.requestMethod, bytes := "" }
  match response.body with
  | .error e => (res0, none, some (ApiErr.readFailure e))
  | .ok responseAsBytes =>
    let res : ResponseScheme := { res0 with bytes := responseAsBytes }
    let wasSuccess := 200 ≤ response.statusCode ∧ response.statusCode < 300
    if ¬wasSuccess then
      (res, none, some (statusError response.statusCode))
    else
      match dest with
      | none => (res, none, none)
      | some unmarshal =>
        match unmarshal responseAsBytes with
        | .error e => (res, none, some (ApiErr.decodeFailure e))
        | .ok v => (res, some v, none)

/-- Client.Call: perform the HTTP exchange through the transport; a
transport-level failure is returned with no envelope, otherwise the
response is classified by processResponse. -/
def Call {σ : Type} (httpDo : ConnRequest → Except String HttpResponse)
    (request : ConnRequest) (dest : Option (String → Except String σ)) :
    Option ResponseScheme × Option σ × Option ApiErr :=
  match httpDo request with
  | .error e => (none, none, some (ApiErr.transportFailure e))
  | .ok response =>
    let out := processResponse response dest
    (some out.1, out.2.1, out.2.2)

/-! ## Request pipeline (jira/v3/api_client_impl.go: Client.NewRequest)

The body argument of NewRequest is an arbitrary Go value marshalled with
encoding/json, except when it is already a *bytes.Buffer. JSON-marshallable
values are modelled by the Json inductive below; the encoder mirrors the
compact output of json.Encoder.Encode including its trailing newline (the
HTML-escaping and map-key-sorting details of encoding/json are not modelled
since no claim depends on the exact serialized text). -/

/-- A JSON-marshallable Go value. -/
inductive Json
  | null
  | bool (b : Bool)
  | num (n : Int)
  | str (s : String)
  | arr (xs : List Json)
  | obj (fields : List (String × Json))

/-- Escaping of one character inside a JSON string literal. -/
def jsonEscapeChar (c : Char) : String :=
  if c = '"' then "\\\""
  else if c = '\\' then "\\\\"
  else if c = '\n' then "\\n"
  else if c = '\t' then "\\t"
  else if c = '\r' then "\\r"
  else String.singleton c

/-- Escaping of a JSON string literal body. -/
def jsonEscape (s : String) : String :=
  String.join (s.toList.map jsonEscapeChar)

mutual

/-- Compact JSON serialization of a value. -/
def encodeJson : Json → String
  | .null => "null"
  | .bool true => "true"
  | .bool false => "false"
  | .num n => toString n
  | .str s => "\"" ++ jsonEscape s ++ "\""
  | .arr xs => "[" ++ encodeJsonArr xs ++ "]"
  | .obj fs => "\x7b" ++ encodeJsonObj fs ++ "\x7d"

/-- Comma-separated serialization of array elements. -/
def encodeJsonArr : List Json → String
  | [] => ""
  | [x] => encodeJson x
  | x :: xs => encodeJson x ++ "," ++ encodeJsonArr xs

/-- Comma-separated serialization of object fields. -/
def encodeJsonObj : List (String × Json) → String
  | [] => ""
  | [(k, v)] => "\"" ++ jsonEscape k ++ "\":" ++ encodeJson v
  | (k, v) :: fs => "\"" ++ jsonEscape k ++ "\":" ++ encodeJson v ++ "," ++ encodeJsonObj fs

end

/-- json.Encoder.Encode output: the compact serialization followed by a
newline. -/
def encodeJsonLn (v : Json) : String := encodeJson v ++ "\n"

/-- The standard base64 alphabet (RFC 4648), as used by Go
req.SetBasicAuth via encoding/base64 StdEncoding. -/
def base64Alphabet : List Char :=
  "ABCDEFGHIJKLMNOPQRSTUVWXYZabcdefghijklmnopqrstuvwxyz0123456789+/".toList

/-- The base64 digit for a 6-bit group. -/
def base64Digit (n : Nat) : Char := base64Alphabet.getD n 'A'

/-- Base64 encoding of a byte list, three bytes at a time with = padding. -/
def base64Chunks : List Nat → String
  | [] => ""
  | [a] =>
    let n := a * 65536
    String.mk [base64Digit (n / 262144 % 64), base64Digit (n / 4096 % 64)] ++ "=="
  | [a, b] =>
    let n := a * 65536 + b * 256
    String.mk [base64Digit (n / 262144 % 64), base64Digit (n / 4096 % 64),
               base64Digit (n / 64 % 64)] ++ "="
  | a :: b :: c :: rest =>
    let n := a * 65536 + b * 256 + c
    String.mk [base64Digit (n / 262144 % 64), base64Digit (n / 4096 % 64),
               base64Digit (n / 64 % 64), base64Digit (n % 64)] ++ base64Chunks rest

/-- Base64 encoding of the UTF-8 bytes of a string. -/
def base64Encode (s : String) : String :=
  base64Chunks (s.toUTF8.data.toList.map (fun b => b.toNat))

/-- The Authorization header value produced by Go req.SetBasicAuth. -/
def basicAuthValue (user pass : String) : String :=
  "Basic " ++ base64Encode (user ++ ":" ++ pass)

/-! ### Headers

Go net/http Header semantics for the operations the source uses:
Header.Set replaces every existing value of a key with the single given
value; Header.Add appends a value. -/

/-- Header.Set. -/
def headerSet (hs : List (String × String)) (k v : String) : List (String × String) :=
  hs.filter (fun p => p.1 ≠ k) ++ [(k, v)]

/-- Header.Add. -/
def headerAdd (hs : List (String × String)) (k v : String) : List (String × String) :=
  hs ++ [(k, v)]

/-- Header.Values: every value stored under a key, in order. -/
def headerValues (hs : List (String × String)) (k : String) : List String :=
  (hs.filter (fun p => p.1 = k)).map (fun p => p.2)

/-! ### Credential state

Modelled from the spec: the internal AuthenticationService (not under src)
holds an optional basic-auth pair, a bearer token string, and an optional
user-agent string, with presence queries HasBasicAuth / HasUserAgent and
accessors GetBasicAuth / GetBearerToken / GetUserAgent. -/
structure AuthState where
  basic : Option (String × String) := none
  bearerToken : String := ""
  userAgent : Option String := none
  deriving DecidableEq

/-- HasBasicAuth. -/
def AuthState.hasBasicAuth (a : AuthState) : Bool := a.basic.isSome

/-- HasUserAgent. -/
def AuthState.hasUserAgent (a : AuthState) : Bool := a.userAgent.isSome

/-- SetBearerToken. -/
def AuthState.setBearerToken (a : AuthState) (tok : String) : AuthState :=
  { a with bearerToken := tok }

/-- The body argument of NewRequest: either an arbitrary JSON-marshallable
value or a pre-built raw *bytes.Buffer. -/
inductive GoBody
  | json (v : Json)
  | buffer (bytes : String)

/-- The request payload NewRequest builds: the source first JSON-encodes a
non-nil body into a fresh buffer, then, when the body is itself a
*bytes.Buffer, replaces that buffer wholesale with the caller's buffer, so
the net payload is the verbatim buffer bytes in that case. -/
def requestPayload : Option GoBody → String
  | none => ""
  | some (.json v) => encodeJsonLn v
  | some (.buffer bytes) => bytes

/-- Site.ResolveReference(rel) for the usage pattern of this client: an
absolute site URL normalized to end in "/" and a relative endpoint path.
Full RFC 3986 reference resolution is not modelled; no claim depends on
the resolved URL text. -/
def resolveReference (site rel : String) : String := site ++ rel

/-- The request value produced by Client.NewRequest. -/
structure HttpRequest where
  method : String
  url : String
  payload : String
  headers : List (String × String)

/-- Client.NewRequest: resolve the endpoint against the site, build the
payload, then set headers in source order — Accept always; Content-Type
JSON when a body is present; an explicitly given contentType overrides
Content-Type and marks the request with the no-CSRF-check upload header;
basic auth when configured; User-Agent when configured; and a bearer
Authorization header only when the bearer token is non-empty and basic
auth is not configured. The url.Parse / http.NewRequestWithContext failure
paths concern malformed URL text only and are not modelled. -/
def NewRequest (auth : AuthState) (site : String)
    (method urlStr contentType : String) (body : Option GoBody) : HttpRequest :=
  let u := resolveReference site urlStr
  let payload := requestPayload body
  let h := headerSet [] "Accept" "application/json"
  let h := if body.isSome then headerSet h "Content-Type" "application/json" else h
  let h := if contentType ≠ "" then
      headerSet (headerSet h "Content-Type" contentType) "X-Atlassian-Token" "no-check"
    else h
  let h := if auth.hasBasicAuth then
      headerSet h "Authorization"
        (basicAuthValue (auth.basic.getD ("", "")).1 (auth.basic.getD ("", "")).2)
    else h
  let h := if auth.hasUserAgent then
      headerSet h "User-Agent" (auth.userAgent.getD "")
    else h
  let h := if auth.bearerToken ≠ "" ∧ ¬auth.hasBasicAuth then
      headerAdd h "Authorization" ("Bearer " ++ auth.bearerToken)
    else h
  { method := method, url := u, payload := payload, headers := h }

/-! ## Client Configuration Assembler (jira/v3/api_client_impl.go: New and
the ClientOption functions)

The option functions delegate to the oauth2 package
(NewOAuth2Service, SetupTokenSourcesWithStorage, ExtractBaseTransport,
ExtractWrapper, CreateOAuthTransport, WrapHTTPClient, WithStore,
WithCallback), which is code of this repository not present under src.
Modelled from the spec: those collaborators are bundled into an OAuth2Ops
record of opaque operations over opaque capability handles, and every
theorem about the assembler quantifies over an arbitrary implementation of
that record, so the results hold whatever the missing package does. -/

/-- Modelled from the spec: an opaque transport capability handle
(common.HTTPClient). -/
structure Transport where
  handle : Nat
  deriving DecidableEq

/-- Modelled from the spec: an opaque OAuth 2.0 configuration
(common.OAuth2Config). -/
structure OAuth2Config where
  handle : Nat
  deriving DecidableEq

/-- Modelled from the spec: an OAuth 2.0 token (common.OAuth2Token); only
the access token is read by the assembler (it seeds the bearer token). -/
structure OAuth2Token where
  accessToken : String
  deriving DecidableEq

/-- Modelled from the spec: an opaque OAuth 2.0 service handle
(common.OAuth2Service). -/
structure OAuthService where
  handle : Nat
  deriving DecidableEq

/-- Modelled from the spec: an opaque reusable token source handle
(the reuse source returned by SetupTokenSourcesWithStorage). -/
structure TokenSource where
  handle : Nat
  deriving DecidableEq

/-- Modelled from the spec: an opaque external token store capability
(oauth2.TokenStore). -/
structure TokenStore where
  handle : Nat
  deriving DecidableEq

/-- Modelled from the spec: an opaque token refresh callback capability
(oauth2.TokenCallback). -/
structure TokenCallback where
  handle : Nat
  deriving DecidableEq

/-- Modelled from the spec: the operations of the oauth2 package used by
the client options. Every assembler theorem holds for an arbitrary
implementation of this record. -/
structure OAuth2Ops where
  newOAuth2Service : Transport → OAuth2Config → Except String OAuthService
  setupTokenSourcesWithStorage : OAuth2Token → OAuthService → Transport → Except String TokenSource
  extractBaseTransport : Transport → Transport
  extractWrapper : Transport → Option Transport
  createOAuthTransport : TokenSource → Transport → AuthState → Transport
  wrapHTTPClient : Transport → Transport
  withStoreOp : Transport → TokenStore → Transport
  withCallbackOp : Transport → TokenCallback → Transport

/-- The fields of the v3 Client touched by the assembler: the HTTP
transport, the credential state, the optional OAuth service, and the site.
The dozens of per-resource service fields are wired from collaborator
constructors not under src and carry no assembler-relevant state. -/
structure Client where
  http : Transport
  auth : AuthState
  oauth : Option OAuthService
  site : String

/-- ClientOption: a function that configures a Client or fails. -/
abbrev ClientOption := Client → Except String Client

/-- WithOAuth: fails on a nil configuration, otherwise installs the OAuth
service built over the current transport. -/
def WithOAuth (ops : OAuth2Ops) (config : Option OAuth2Config) : ClientOption := fun c =>
  match config with
  | none => .error "oauth config cannot be nil"
  | some cfg =>
    match ops.newOAuth2Service c.http cfg with
    | .error e => .error ("failed to create OAuth service: " ++ e)
    | .ok oauthService => .ok { c with oauth := some oauthService }

/-- WithAutoRenewalToken: fails on a nil token, fails when OAuth has not
been configured, otherwise sets up the token sources, rebuilds the
transport over the extracted base transport (the intermediate restore of a
wrapped original client in the source is immediately overwritten by the
new OAuth transport), and seeds the bearer token with the token's access
token. -/
def WithAutoRenewalToken (ops : OAuth2Ops) (token : Option OAuth2Token) : ClientOption := fun c =>
  match token with
  | none => .error "token cannot be nil for auto-renewal"
  | some tok =>
    match c.oauth with
    | none => .error "OAuth must be configured before enabling auto-renewal (use WithOAuth first)"
    | some oauthService =>
      match ops.setupTokenSourcesWithStorage tok oauthService c.http with
      | .error e => .error ("failed to setup token sources: " ++ e)
      | .ok reuseSource =>
        let base := ops.extractBaseTransport c.http
        let c1 := match ops.extractWrapper c.http with
          | some originalClient => { c with http := originalClient }
          | none => c
        let c2 := { c1 with http := ops.createOAuthTransport reuseSource base c1.auth }
        .ok { c2 with auth := c2.auth.setBearerToken tok.accessToken }

/-- WithOAuthWithAutoRenewal: the composite option — first WithOAuth, then
WithAutoRenewalToken. -/
def WithOAuthWithAutoRenewal (ops : OAuth2Ops) (config : Option OAuth2Config)
    (token : Option OAuth2Token) : ClientOption := fun c =>
  match WithOAuth ops config c with
  | .error e => .error e
  | .ok c1 => WithAutoRenewalToken ops token c1

/-- WithTokenStore: fails on a nil store, otherwise wraps the transport
with the store attached. -/
def WithTokenStore (ops : OAuth2Ops) (store : Option TokenStore) : ClientOption := fun c =>
  match store with
  | none => .error "token store cannot be nil"
  | some s => .ok { c with http := ops.withStoreOp (ops.wrapHTTPClient c.http) s }

/-- WithTokenCallback: fails on a nil callback, otherwise wraps the
transport with the callback attached. -/
def WithTokenCallback (ops : OAuth2Ops) (callback : Option TokenCallback) : ClientOption := fun c =>
  match callback with
  | none => .error "token callback cannot be nil"
  | some cb => .ok { c with http := ops.withCallbackOp (ops.wrapHTTPClient c.http) cb }

/-- models.ErrNoSite. -/
def errNoSite : String := "no site set"

/-- http.DefaultClient, used when the caller passes a nil transport. -/
def defaultTransport : Transport := { handle := 0 }

/-- The partially built client New constructs before applying options: the
caller transport (or the default), an empty credential state, no OAuth
service, and the site normalized to end in a path separator. -/
def initialClient (httpClient : Option Transport) (site : String) : Client :=
  { http := match httpClient with
      | none => defaultTransport
      | some t => t
    auth := {}
    oauth := none
    site := if site.endsWith "/" then site else site ++ "/" }

/-- The option-application loop of New: options are applied strictly in
order and the first failure aborts with that error. -/
def applyOptions : List ClientOption → Client → Except String Client
  | [], c => .ok c
  | o :: rest, c =>
    match o c with
    | .error e => .error e
    | .ok c1 => applyOptions rest c1

/-- New: an empty site is rejected with ErrNoSite; otherwise the client is
assembled and the options are applied in order, any failure returning the
error with no client. The url.Parse of the non-empty site and the wiring
of the per-resource services (collaborator constructors not under src) are
not modelled; the spec describes construction as default transport, empty
credential state, then ordered option application. -/
def NewClient (httpClient : Option Transport) (site : String)
    (options : List ClientOption) : Except String Client :=
  if site = "" then .error errNoSite
  else applyOptions options (initialClient httpClient site)

/-- The named option vocabulary of the source, used to quantify over
option sequences. -/
inductive OptionSpec
  | oauth (config : Option OAuth2Config)
  | autoRenewal (token : Option OAuth2Token)
  | oauthWithAutoRenewal (config : Option OAuth2Config) (token : Option OAuth2Token)
  | tokenStore (store : Option TokenStore)
  | tokenCallback (cb : Option TokenCallback)

/-- Interpretation of an OptionSpec as the corresponding source option. -/
def OptionSpec.interp (ops : OAuth2Ops) : OptionSpec → ClientOption
  | .oauth config => WithOAuth ops config
  | .autoRenewal token => WithAutoRenewalToken ops token
  | .oauthWithAutoRenewal config token => WithOAuthWithAutoRenewal ops config token
  | .tokenStore store => WithTokenStore ops store
  | .tokenCallback cb => WithTokenCallback ops cb

/-- Whether an option can install the OAuth2 capability. -/
def OptionSpec.installsOAuth : OptionSpec → Bool
  | .oauth _ => true
  | .oauthWithAutoRenewal _ _ => true
  | _ => false

/-! ## Concrete fixtures -/

/-- The zero value of IssueArchivalSyncResponseScheme (the freshly allocated
report before unmarshalling). -/
def zeroSyncResponse : IssueArchivalSyncResponseScheme :=
  { errors := none, numberOfIssuesUpdated := 0 }

/-- A concrete 204 response with empty body whose resolved URL ends in
/task/10042, as in the asynchronous-shape scenario. -/
def taskScenarioResponse : ResponseScheme :=
  { code := 204
    endpoint := "https://x.atlassian.net/rest/api/3/task/10042"
    method := "POST"
    bytes := "" }

/-- A connector whose exchange always succeeds with taskScenarioResponse. -/
def taskScenarioConnector : Connector :=
  { newRequest := fun _ _ _ _ => .ok { id := 0 }
    call := fun _ _ => ConnCallResult.ok taskScenarioResponse zeroSyncResponse }

/-- A concrete 404 response whose body reads successfully. -/
def notFoundResponse : HttpResponse :=
  { statusCode := 404
    requestURL := "https://x.atlassian.net/rest/api/3/issue/DEMO-1"
    requestMethod := "GET"
    body := Except.ok "issue does not exist" }

/-- A transport that always answers with notFoundResponse. -/
def notFoundHttpDo : ConnRequest → Except String HttpResponse :=
  fun _ => Except.ok notFoundResponse

/-- A concrete 200 response whose body reads successfully. -/
def okHttpResponse : HttpResponse :=
  { statusCode := 200
    requestURL := "https://x.atlassian.net/rest/api/3/myself"
    requestMethod := "GET"
    body := Except.ok "payload" }

/-- A destination unmarshaller that decodes a body into its length. -/
def lengthUnmarshal : String → Except String Nat :=
  fun s => Except.ok s.length

/-- A credential state with both basic auth and a bearer token configured. -/
def basicBearerAuth : AuthState :=
  { basic := some ("user", "pass"), bearerToken := "tok", userAgent := some "go-atlassian" }

/-- A concrete site URL. -/
def site0 : String := "https://x.atlassian.net/"

/-- A concrete trivial implementation of the oauth2 operations, used to
instantiate the assembler theorems. -/
def trivialOps : OAuth2Ops :=
  { newOAuth2Service := fun _ _ => .ok { handle := 1 }
    setupTokenSourcesWithStorage := fun _ _ _ => .ok { handle := 2 }
    extractBaseTransport := fun t => t
    extractWrapper := fun _ => none
    createOAuthTransport := fun _ t _ => t
    wrapHTTPClient := fun t => t
    withStoreOp := fun t _ => t
    withCallbackOp := fun t _ => t }

/-! ## Theorems about the archival resource methods -/

/-- C8: Preserve and Restore with an empty issue-ID list return
ErrNoIssuesSlice with nil result and nil response, and PreserveByJQL with
an empty JQL string returns ErrNoJQL with empty task ID and nil response;
in all three cases the connector trace is empty, so no request is built or
sent. -/
theorem archival_validates_before_building_requests (c : Connector) (version : String) :
    internalIssueArchivalImpl.Preserve c version [] =
      ((none, none, some ApiErr.noIssuesSlice), []) ∧
    internalIssueArchivalImpl.Restore c version [] =
      ((none, none, some ApiErr.noIssuesSlice), []) ∧
    internalIssueArchivalImpl.PreserveByJQL c version "" =
      (("", none, some ApiErr.noJQL), []) := by
  refine ⟨?_, ?_, ?_⟩ <;> rfl

/-- C10: Export returns the empty string as the task ID on every return
path, for every connector behaviour — it never extracts a task identifier. -/
theorem export_taskID_always_empty (c : Connector) (version : String)
    (payload : Option IssueArchivalExportPayloadScheme) :
    (internalIssueArchivalImpl.Export c version payload).1.1 = "" := by
  simp only [internalIssueArchivalImpl.Export]
  split
  · rfl
  · split <;> rfl

/-- C1 counterexample: with a successful HTTP exchange whose response has
status 204, empty body, and a resolved URL whose final path segment is
"10042", PreserveByJQL returns the task handle "." (path.Base of the empty
body), not "10042" — the task ID is not taken from the resolved URL. -/
theorem preserveByJQL_taskID_not_from_resolved_url :
    (internalIssueArchivalImpl.PreserveByJQL taskScenarioConnector "3" "project = DEMO").1 =
      (".", some taskScenarioResponse, none) ∧
    taskScenarioResponse.code = 204 ∧
    taskScenarioResponse.bytes = "" ∧
    pathBase taskScenarioResponse.endpoint = "10042" ∧
    (internalIssueArchivalImpl.PreserveByJQL taskScenarioConnector "3" "project = DEMO").1.1 ≠
      "10042" := by
  refine ⟨by decide, rfl, rfl, by decide, by decide⟩

/-- C1 amended: for every PreserveByJQL call whose HTTP exchange succeeds,
the returned task ID is path.Base applied to the buffered response body
string (in particular, a 204-status response with empty body yields the
handle "." regardless of the resolved URL). -/
theorem preserveByJQL_taskID_is_pathBase_of_body (c : Connector)
    (version jql taskID : String) (resp : ResponseScheme)
    (h : (internalIssueArchivalImpl.PreserveByJQL c version jql).1 =
      (taskID, some resp, none)) :
    taskID = pathBase resp.bytes := by
  simp only [internalIssueArchivalImpl.PreserveByJQL] at h
  split at h
  · simp at h
  · split at h
    · simp at h
    · split at h
      · simp at h
      · simp only [Prod.mk.injEq, Option.some.injEq] at h
        rw [← h.1, h.2.1]

/-- Witness for the amended C1 theorem at the concrete 204 scenario. -/
theorem preserveByJQL_taskID_is_pathBase_of_body_witness :
    ("." : String) = pathBase taskScenarioResponse.bytes :=
  preserveByJQL_taskID_is_pathBase_of_body taskScenarioConnector "3" "project = DEMO" "."
    taskScenarioResponse (by decide)

/-! ## Theorems about the response classifier -/

/-- Every status error produced by the non-2xx switch belongs to the fixed
status taxonomy. -/
theorem statusError_isStatusErr (code : Nat) : (statusError code).isStatusErr = true := by
  unfold statusError
  split_ifs <;> rfl

/-- C2: for every HTTP response processed by Call whose body drains
successfully, a status in [200,300) produces no status-taxonomy error,
while a non-2xx status is mapped through the fixed taxonomy
(404 to not-found, 401 to unauthorized, 500 to internal, 400 to
bad-request, every other status to the generic invalid-status error), and
the populated envelope (status code, endpoint, method, buffered body
bytes) is returned alongside the error. -/
theorem call_status_taxonomy {σ : Type} (httpDo : ConnRequest → Except String HttpResponse)
    (request : ConnRequest) (dest : Option (String → Except String σ))
    (response : HttpResponse) (body : String)
    (hdo : httpDo request = .ok response)
    (hbody : response.body = .ok body) :
    let out := processResponse response dest
    Call httpDo request dest = (some out.1, out.2.1, out.2.2) ∧
    out.1 = { code := response.statusCode, endpoint := response.requestURL,
              method := response.requestMethod, bytes := body } ∧
    ((200 ≤ response.statusCode ∧ response.statusCode < 300) →
      ∀ e, out.2.2 = some e → e.isStatusErr = false) ∧
    (¬(200 ≤ response.statusCode ∧ response.statusCode < 300) →
      out.2.2 = some (statusError response.statusCode) ∧
      (response.statusCode = 404 → out.2.2 = some ApiErr.notFound) ∧
      (response.statusCode = 401 → out.2.2 = some ApiErr.unauthorized) ∧
      (response.statusCode = 500 → out.2.2 = some ApiErr.internalServerError) ∧
      (response.statusCode = 400 → out.2.2 = some ApiErr.badRequest) ∧
      (response.statusCode ≠ 404 → response.statusCode ≠ 401 →
        response.statusCode ≠ 500 → response.statusCode ≠ 400 →
        out.2.2 = some ApiErr.invalidStatusCode)) := by
  refine ⟨by simp [Call, hdo], ?_, ?_, ?_⟩
  · simp only [processResponse, hbody]
    split
    · rfl
    · rcases dest with _ | unmarshal
      · rfl
      · rcases hu : unmarshal body with e | v <;> simp [hu]
  · intro h2xx e he
    simp only [processResponse, hbody] at he
    rw [if_neg (by simpa using h2xx)] at he
    cases dest with
    | none => simp at he
    | some unmarshal =>
      cases hu : unmarshal body with
      | error msg => simp [hu] at he; rw [← he]; rfl
      | ok v => simp [hu] at he
  · intro hfail
    simp only [processResponse, hbody]
    rw [if_pos (by simpa using hfail)]
    refine ⟨rfl, ?_, ?_, ?_, ?_, ?_⟩
    · intro h; rw [h]; rfl
    · intro h; rw [h]; rfl
    · intro h; rw [h]; rfl
    · intro h; rw [h]; rfl
    · intro h404 h401 h500 h400
      simp [statusError, h404, h401, h500, h400]

/-- Witness for the C2 theorem at a concrete 404 exchange. -/
theorem call_status_taxonomy_witness :
    (let out := processResponse notFoundResponse (none : Option (String → Except String Nat))
     Call notFoundHttpDo { id := 0 } (none : Option (String → Except String Nat)) =
       (some out.1, out.2.1, out.2.2) ∧
     out.1 = { code := notFoundResponse.statusCode, endpoint := notFoundResponse.requestURL,
               method := notFoundResponse.requestMethod, bytes := "issue does not exist" } ∧
     ((200 ≤ notFoundResponse.statusCode ∧ notFoundResponse.statusCode < 300) →
       ∀ e, out.2.2 = some e → e.isStatusErr = false) ∧
     (¬(200 ≤ notFoundResponse.statusCode ∧ notFoundResponse.statusCode < 300) →
       out.2.2 = some (statusError notFoundResponse.statusCode) ∧
       (notFoundResponse.statusCode = 404 → out.2.2 = some ApiErr.notFound) ∧
       (notFoundResponse.statusCode = 401 → out.2.2 = some ApiErr.unauthorized) ∧
       (notFoundResponse.statusCode = 500 → out.2.2 = some ApiErr.internalServerError) ∧
       (notFoundResponse.statusCode = 400 → out.2.2 = some ApiErr.badRequest) ∧
       (notFoundResponse.statusCode ≠ 404 → notFoundResponse.statusCode ≠ 401 →
         notFoundResponse.statusCode ≠ 500 → notFoundResponse.statusCode ≠ 400 →
         out.2.2 = some ApiErr.invalidStatusCode))) :=
  call_status_taxonomy notFoundHttpDo { id := 0 } none notFoundResponse
    "issue does not exist" rfl rfl

/-- C9: when the destination is non-nil and the status is in [200,300),
the buffered body bytes are unmarshalled into the destination; an
unmarshalling failure is returned as a decode error together with the
populated envelope; and the decode error class is distinct from the
HTTP-status taxonomy and can only arise on a 2xx response. -/
theorem processResponse_decode_distinct_error {σ : Type} (response : HttpResponse)
    (body : String) (unmarshal : String → Except String σ)
    (hbody : response.body = .ok body)
    (h2xx : 200 ≤ response.statusCode ∧ response.statusCode < 300) :
    (∀ v, unmarshal body = .ok v →
      processResponse response (some unmarshal) =
        ({ code := response.statusCode, endpoint := response.requestURL,
           method := response.requestMethod, bytes := body }, some v, none)) ∧
    (∀ e, unmarshal body = .error e →
      processResponse response (some unmarshal) =
        ({ code := response.statusCode, endpoint := response.requestURL,
           method := response.requestMethod, bytes := body }, none,
          some (ApiErr.decodeFailure e)) ∧
      (ApiErr.decodeFailure e).isStatusErr = false) ∧
    (∀ (response' : HttpResponse) (dest' : Option (String → Except String σ)) (m : String),
      (processResponse response' dest').2.2 = some (ApiErr.decodeFailure m) →
      200 ≤ response'.statusCode ∧ response'.statusCode < 300) := by
  refine ⟨?_, ?_, ?_⟩
  · intro v hv
    simp only [processResponse, hbody]
    rw [if_neg (by simpa using h2xx)]
    simp [hv]
  · intro e he
    simp only [processResponse, hbody]
    rw [if_neg (by simpa using h2xx)]
    simp [he, ApiErr.isStatusErr]
  · intro response' dest' m h
    rcases hb : response'.body with e | b
    · simp [processResponse, hb] at h
    · simp only [processResponse, hb] at h
      split at h
      · exfalso
        simp only [Prod.snd] at h
        simp only [Option.some.injEq] at h
        have h2 := congrArg ApiErr.isStatusErr h
        rw [statusError_isStatusErr] at h2
        simp [ApiErr.isStatusErr] at h2
      · next hcond => exact not_not.mp hcond

/-- Witness for the C9 theorem at a concrete 200 exchange with a length
unmarshaller. -/
theorem processResponse_decode_distinct_error_witness :
    (∀ v, lengthUnmarshal "payload" = .ok v →
      processResponse okHttpResponse (some lengthUnmarshal) =
        ({ code := okHttpResponse.statusCode, endpoint := okHttpResponse.requestURL,
           method := okHttpResponse.requestMethod, bytes := "payload" }, some v, none)) ∧
    (∀ e, lengthUnmarshal "payload" = .error e →
      processResponse okHttpResponse (some lengthUnmarshal) =
        ({ code := okHttpResponse.statusCode, endpoint := okHttpResponse.requestURL,
           method := okHttpResponse.requestMethod, bytes := "payload" }, none,
          some (ApiErr.decodeFailure e)) ∧
      (ApiErr.decodeFailure e).isStatusErr = false) ∧
    (∀ (response' : HttpResponse) (dest' : Option (String → Except String Nat)) (m : String),
      (processResponse response' dest').2.2 = some (ApiErr.decodeFailure m) →
      200 ≤ response'.statusCode ∧ response'.statusCode < 300) :=
  processResponse_decode_distinct_error okHttpResponse "payload" lengthUnmarshal rfl
    (by decide)

/-! ## Theorems about the request pipeline -/

/-- C5: exactly one Authorization scheme is applied, with basic auth taking
priority — when basic auth is set the basic Authorization header is the
only one sent and no bearer header is added; the bearer header is sent
exactly when a non-empty bearer token is set and basic auth is not; the
User-Agent header is applied exactly when a user agent is set. -/
theorem newRequest_auth_precedence (auth : AuthState)
    (site method urlStr contentType : String) (body : Option GoBody) :
    let req := NewRequest auth site method urlStr contentType body
    (∀ u p, auth.basic = some (u, p) →
      headerValues req.headers "Authorization" = [basicAuthValue u p]) ∧
    (auth.basic = none → auth.bearerToken ≠ "" →
      headerValues req.headers "Authorization" = ["Bearer " ++ auth.bearerToken]) ∧
    (auth.basic = none → auth.bearerToken = "" →
      headerValues req.headers "Authorization" = []) ∧
    (∀ ua, auth.userAgent = some ua → headerValues req.headers "User-Agent" = [ua]) ∧
    (auth.userAgent = none → headerValues req.headers "User-Agent" = []) := by
  refine ⟨?_, ?_, ?_, ?_, ?_⟩
  · intro u p hb
    rcases hua : auth.userAgent with _ | ua <;>
      rcases body with _ | b <;>
        by_cases hct : contentType = "" <;>
          simp [NewRequest, AuthState.hasBasicAuth, AuthState.hasUserAgent, hb, hua, hct,
                headerValues, headerSet, headerAdd]
  · intro hb hbt
    rcases hua : auth.userAgent with _ | ua <;>
      rcases body with _ | b <;>
        by_cases hct : contentType = "" <;>
          simp [NewRequest, AuthState.hasBasicAuth, AuthState.hasUserAgent, hb, hbt, hua, hct,
                headerValues, headerSet, headerAdd]
  · intro hb hbt
    rcases hua : auth.userAgent with _ | ua <;>
      rcases body with _ | b <;>
        by_cases hct : contentType = "" <;>
          simp [NewRequest, AuthState.hasBasicAuth, AuthState.hasUserAgent, hb, hbt, hua, hct,
                headerValues, headerSet, headerAdd]
  · intro ua hua
    rcases hb : auth.basic with _ | up <;>
      rcases body with _ | b <;>
        by_cases hct : contentType = "" <;>
          by_cases hbt : auth.bearerToken = "" <;>
            simp [NewRequest, AuthState.hasBasicAuth, AuthState.hasUserAgent, hb, hbt, hua, hct,
                  headerValues, headerSet, headerAdd]
  · intro hua
    rcases hb : auth.basic with _ | up <;>
      rcases body with _ | b <;>
        by_cases hct : contentType = "" <;>
          by_cases hbt : auth.bearerToken = "" <;>
            simp [NewRequest, AuthState.hasBasicAuth, AuthState.hasUserAgent, hb, hbt, hua, hct,
                  headerValues, headerSet, headerAdd]

/-- Witness for C5: with both basic auth and a bearer token set, the basic
Authorization header is the only Authorization header sent. -/
theorem newRequest_auth_precedence_witness :
    headerValues (NewRequest basicBearerAuth site0 "GET" "rest/api/3/myself" "" none).headers
      "Authorization" = [basicAuthValue "user" "pass"] :=
  (newRequest_auth_precedence basicBearerAuth site0 "GET" "rest/api/3/myself" "" none).1
    "user" "pass" rfl

/-- C6: the Accept JSON header is always set; Content-Type JSON is set
exactly when a body is present; and a non-empty contentType argument
overrides the body-presence rule and additionally marks the request with
the no-CSRF-check upload header. -/
theorem newRequest_content_type_headers (auth : AuthState)
    (site method urlStr contentType : String) (body : Option GoBody) :
    let req := NewRequest auth site method urlStr contentType body
    headerValues req.headers "Accept" = ["application/json"] ∧
    (contentType = "" →
      headerValues req.headers "Content-Type" =
        (if body.isSome then ["application/json"] else []) ∧
      headerValues req.headers "X-Atlassian-Token" = []) ∧
    (contentType ≠ "" →
      headerValues req.headers "Content-Type" = [contentType] ∧
      headerValues req.headers "X-Atlassian-Token" = ["no-check"]) := by
  refine ⟨?_, ?_, ?_⟩
  · rcases hua : auth.userAgent with _ | ua <;>
      rcases hb : auth.basic with _ | up <;>
        rcases body with _ | b <;>
          by_cases hct : contentType = "" <;>
            by_cases hbt : auth.bearerToken = "" <;>
              simp [NewRequest, AuthState.hasBasicAuth, AuthState.hasUserAgent, hb, hbt, hua,
                    hct, headerValues, headerSet, headerAdd]
  · intro hct
    rcases hua : auth.userAgent with _ | ua <;>
      rcases hb : auth.basic with _ | up <;>
        rcases body with _ | b <;>
          by_cases hbt : auth.bearerToken = "" <;>
            simp [NewRequest, AuthState.hasBasicAuth, AuthState.hasUserAgent, hb, hbt, hua,
                  hct, headerValues, headerSet, headerAdd]
  · intro hct
    rcases hua : auth.userAgent with _ | ua <;>
      rcases hb : auth.basic with _ | up <;>
        rcases body with _ | b <;>
          by_cases hbt : auth.bearerToken = "" <;>
            simp [NewRequest, AuthState.hasBasicAuth, AuthState.hasUserAgent, hb, hbt, hua,
                  hct, headerValues, headerSet, headerAdd]

/-- Witness for C6: an explicit contentType with a pre-built buffer body
overrides Content-Type and adds the upload header. -/
theorem newRequest_content_type_headers_witness :
    headerValues (NewRequest basicBearerAuth site0 "POST" "rest/api/3/attach" "image/png"
      (some (GoBody.buffer "PNG"))).headers "Content-Type" = ["image/png"] ∧
    headerValues (NewRequest basicBearerAuth site0 "POST" "rest/api/3/attach" "image/png"
      (some (GoBody.buffer "PNG"))).headers "X-Atlassian-Token" = ["no-check"] :=
  (newRequest_content_type_headers basicBearerAuth site0 "POST" "rest/api/3/attach"
    "image/png" (some (GoBody.buffer "PNG"))).2.2 (by decide)

/-- C7: the request payload is the JSON serialization of a non-nil body,
except that a raw *bytes.Buffer body is used verbatim as the payload,
byte for byte unchanged. -/
theorem newRequest_payload_serialization (auth : AuthState)
    (site method urlStr contentType : String) :
    (∀ v, (NewRequest auth site method urlStr contentType (some (GoBody.json v))).payload =
      encodeJsonLn v) ∧
    (∀ bytes,
      (NewRequest auth site method urlStr contentType (some (GoBody.buffer bytes))).payload =
        bytes) := by
  constructor <;> intro x <;> rfl

/-! ## Theorems about the client configuration assembler -/

/-- Option application distributes over list append, short-circuiting on
the first failure. -/
theorem applyOptions_append (l1 l2 : List ClientOption) (c : Client) :
    applyOptions (l1 ++ l2) c = (applyOptions l1 c).bind (applyOptions l2) := by
  induction l1 generalizing c with
  | nil => rfl
  | cons o rest ih =>
    simp only [List.cons_append, applyOptions]
    cases o c with
    | error e => rfl
    | ok c1 => exact ih c1

/-- An option that cannot install OAuth leaves an absent OAuth service
absent when it succeeds. -/
theorem interp_ok_preserves_no_oauth (ops : OAuth2Ops) (o : OptionSpec) (c c1 : Client)
    (hno : o.installsOAuth = false) (h : o.interp ops c = .ok c1) (hc : c.oauth = none) :
    c1.oauth = none := by
  cases o with
  | oauth config => simp [OptionSpec.installsOAuth] at hno
  | oauthWithAutoRenewal config token => simp [OptionSpec.installsOAuth] at hno
  | autoRenewal token =>
    simp only [OptionSpec.interp, WithAutoRenewalToken] at h
    cases token <;> simp [hc] at h
  | tokenStore store =>
    simp only [OptionSpec.interp, WithTokenStore] at h
    cases store with
    | none => simp at h
    | some s =>
      simp only [Except.ok.injEq] at h
      rw [← h]
      exact hc
  | tokenCallback cb =>
    simp only [OptionSpec.interp, WithTokenCallback] at h
    cases cb with
    | none => simp at h
    | some k =>
      simp only [Except.ok.injEq] at h
      rw [← h]
      exact hc

/-- Applying a sequence of options none of which can install OAuth, from a
client without OAuth, either fails or ends in a client without OAuth. -/
theorem applyOptions_no_oauth (ops : OAuth2Ops) (l : List OptionSpec) (c : Client)
    (h : ∀ o ∈ l, o.installsOAuth = false) (hc : c.oauth = none) :
    (∃ e, applyOptions (l.map (OptionSpec.interp ops)) c = .error e) ∨
    (∃ c1, applyOptions (l.map (OptionSpec.interp ops)) c = .ok c1 ∧ c1.oauth = none) := by
  induction l generalizing c with
  | nil => exact Or.inr ⟨c, rfl, hc⟩
  | cons o rest ih =>
    simp only [List.map_cons, applyOptions]
    cases ho : OptionSpec.interp ops o c with
    | error e => exact Or.inl ⟨e, rfl⟩
    | ok c1 =>
      have hc1 : c1.oauth = none :=
        interp_ok_preserves_no_oauth ops o c c1 (h o (by simp)) ho hc
      exact ih c1 (fun o1 ho1 => h o1 (by simp [ho1])) hc1

/-- WithAutoRenewalToken always fails on a client without OAuth. -/
theorem autoRenewal_fails_on_no_oauth (ops : OAuth2Ops) (token : Option OAuth2Token)
    (c : Client) (hc : c.oauth = none) :
    ∃ e, WithAutoRenewalToken ops token c = .error e := by
  cases token with
  | none => exact ⟨"token cannot be nil for auto-renewal", rfl⟩
  | some tok =>
    exact ⟨"OAuth must be configured before enabling auto-renewal (use WithOAuth first)",
      by simp [WithAutoRenewalToken, hc]⟩

/-- C4: the composite option WithOAuthWithAutoRenewal(config, token) has
an effect on any client identical to applying WithOAuth(config) followed
by WithAutoRenewalToken(token) back-to-back, including producing the same
error when either step fails, for every implementation of the oauth2
collaborators. -/
theorem withOAuthWithAutoRenewal_eq_sequential (ops : OAuth2Ops)
    (config : Option OAuth2Config) (token : Option OAuth2Token) (c : Client) :
    WithOAuthWithAutoRenewal ops config token c =
      (WithOAuth ops config c).bind (WithAutoRenewalToken ops token) := by
  simp only [WithOAuthWithAutoRenewal]
  cases WithOAuth ops config c <;> rfl

/-- C3: every option sequence passed to New that applies the auto-renewal
option with no OAuth-installing option before it makes construction fail
with a configuration error, so New returns no client; and any option
failure at any position aborts construction with that very error, so no
partially-configured client is ever returned. -/
theorem new_rejects_autoRenewal_without_oauth (ops : OAuth2Ops)
    (httpClient : Option Transport) (site : String)
    (l1 l2 : List OptionSpec) (token : Option OAuth2Token)
    (h1 : ∀ o ∈ l1, o.installsOAuth = false) :
    (∃ e, NewClient httpClient site
        ((l1 ++ OptionSpec.autoRenewal token :: l2).map (OptionSpec.interp ops)) =
          .error e) ∧
    (∀ (p r : List ClientOption) (o : ClientOption) (c1 : Client) (e : String),
      site ≠ "" →
      applyOptions p (initialClient httpClient site) = .ok c1 →
      o c1 = .error e →
      NewClient httpClient site (p ++ o :: r) = .error e) := by
  constructor
  · by_cases hsite : site = ""
    · exact ⟨errNoSite, by simp [NewClient, hsite]⟩
    · simp only [NewClient, if_neg hsite, List.map_append, List.map_cons]
      rw [applyOptions_append]
      rcases applyOptions_no_oauth ops l1 (initialClient httpClient site) h1 rfl with
        ⟨e, he⟩ | ⟨c1, hc1, hno⟩
      · exact ⟨e, by rw [he]; rfl⟩
      · rw [hc1]
        rcases autoRenewal_fails_on_no_oauth ops token c1 hno with ⟨e, he⟩
        exact ⟨e, by simp [Except.bind, applyOptions, OptionSpec.interp, he]⟩
  · intro p r o c1 e hsite hp ho
    simp only [NewClient, if_neg hsite]
    rw [applyOptions_append, hp]
    simp [Except.bind, applyOptions, ho]

/-- Witness for C3 at a concrete input: auto-renewal as the only option. -/
theorem new_rejects_autoRenewal_without_oauth_witness :
    (∃ e, NewClient none site0
        (([] ++ OptionSpec.autoRenewal none :: []).map (OptionSpec.interp trivialOps)) =
          .error e) ∧
    (∀ (p r : List ClientOption) (o : ClientOption) (c1 : Client) (e : String),
      site0 ≠ "" →
      applyOptions p (initialClient none site0) = .ok c1 →
      o c1 = .error e →
      NewClient none site0 (p ++ o :: r) = .error e) :=
  new_rejects_autoRenewal_without_oauth trivialOps none site0 [] [] none (by simp)
